import Mathlib

/-!
Shallow embedding of the terrain / hydrology engine of
hugelkultur_streamlit_app.py.  Machine floats are modelled as exact
rationals, numpy arrays as functions over Fin-indexed (or Nat-indexed)
coordinates.  External library primitives (the numpy random generator,
np.cos, and the float power x ** 1.1) are abstracted as function
parameters, since the claims proved here do not depend on their values.
-/

/-- Moisture selector from the sidebar, one of Dry, Average, Wet. -/
inductive Moisture
  | Dry
  | Average
  | Wet
deriving DecidableEq

/-- Embedding of moisture_adj (line 207): Dry maps to -5, Average to 0, Wet to +5. -/
def moisture_adj : Moisture → ℚ
  | .Dry => -5
  | .Average => 0
  | .Wet => 5

/-- Embedding of the CN_base dictionary (lines 202-206): cover code 0 (forest)
maps to 60, code 1 (ground) to 78, code 2 (buildings and roads) to 95.  Cells
whose cover code matches no key would keep the np.zeros initial value 0. -/
def CN_base_at (cover : ℤ) : ℚ :=
  if cover = 0 then 60 else if cover = 1 then 78 else if cover = 2 then 95 else 0

/-- Embedding of np.clip(x, lo, hi). -/
def npClip (x lo hi : ℚ) : ℚ := min (max x lo) hi

/-- Per-cell value of CN = np.clip(CN_base + moisture_adj, 30, 98) (lines 208-211). -/
def CN_cell (cover : ℤ) (m : Moisture) : ℚ :=
  npClip (CN_base_at cover + moisture_adj m) 30 98

/-- Embedding of S = 25400.0 / CN - 254.0 in mm (line 212). -/
def S_of (cn : ℚ) : ℚ := 25400 / cn - 254

/-- Embedding of Ia = 0.2 * S (line 213). -/
def Ia_of (s : ℚ) : ℚ := 2 / 10 * s

/-- Per-cell retention S, computed from the already clipped CN. -/
def S_cell (cover : ℤ) (m : Moisture) : ℚ := S_of (CN_cell cover m)

/-- Per-cell initial abstraction Ia, computed from the already clipped CN. -/
def Ia_cell (cover : ℤ) (m : Moisture) : ℚ := Ia_of (S_cell cover m)

/-- Embedding of scs_runoff (lines 215-218) for one cell: ex = P - Ia, and
Q = ex ^ 2 / (ex + S) where ex > 0, else 0.  The numpy version applies this
formula elementwise with per-cell S and Ia, so the scalar function is the
per-cell semantics. -/
def scs_runoff (P S Ia : ℚ) : ℚ :=
  if 0 < P - Ia then (P - Ia) ^ 2 / (P - Ia + S) else 0

/-- Value of np.linspace(a, b, num) at index i; num = 1 yields the start value. -/
def linspaceAt (a b : ℚ) (num i : ℕ) : ℚ :=
  if num ≤ 1 then a else a + (b - a) * i / (num - 1 : ℕ)

/-- Embedding of np.linspace(a, b, num) as a list (line 313). -/
def linspace (a b : ℚ) (num : ℕ) : List ℚ :=
  (List.range num).map (linspaceAt a b num)

/-- Embedding of the runoff part of the animate loop (lines 338-344), for one
cell: prev starts at 0.0; for each total in the series, inc = total - prev,
prev = total, and the step emits Q = scs_runoff inc S Ia.  The returned list
holds the per-step emitted runoff depths. -/
def animateQs (Sv Iav : ℚ) (series : List ℚ) : List ℚ :=
  (series.foldl (fun st total => (total, st.2 ++ [scs_runoff (total - st.1) Sv Iav]))
    ((0 : ℚ), ([] : List ℚ))).2

/-- Specification-side step rule, stated for comparison with animateQs: at each
step the spec emits max (Q (P_prev + inc) - Q (P_prev)) 0, evaluated here on
the cumulative totals of the series. -/
def specAnimateQs (Sv Iav : ℚ) (series : List ℚ) : List ℚ :=
  (series.foldl (fun st total =>
      (total, st.2 ++ [max (scs_runoff total Sv Iav - scs_runoff st.1 Sv Iav) 0]))
    ((0 : ℚ), ([] : List ℚ))).2

theorem animateQs_aux (Sv Iav : ℚ) (series : List ℚ) : ∀ (prev : ℚ) (acc : List ℚ),
    (series.foldl (fun st total => (total, st.2 ++ [scs_runoff (total - st.1) Sv Iav]))
      (prev, acc)).2
      = acc ++ series.zipWith (fun total p => scs_runoff (total - p) Sv Iav) (prev :: series) := by
  induction series with
  | nil => intro prev acc; simp
  | cons t rest ih =>
    intro prev acc
    simp only [List.foldl_cons, List.zipWith_cons_cons]
    rw [ih t (acc ++ [scs_runoff (t - prev) Sv Iav])]
    simp [List.append_assoc]

/-- C1 (amended): in animated mode each step emits the SCS runoff of the
rainfall increment alone, scs_runoff (total - prev) S Ia, not the clamped
difference of cumulative runoff values described by the spec. -/
theorem animate_emits_increment_runoff (Sv Iav : ℚ) (series : List ℚ) :
    animateQs Sv Iav series
      = series.zipWith (fun total prev => scs_runoff (total - prev) Sv Iav) (0 :: series) := by
  unfold animateQs
  rw [animateQs_aux]
  simp

/-- C1 counterexample: with the CN 78 cell parameters and the three-step series
linspace 0 100 3 = [0, 50, 100], the per-step runoff the code emits differs at
the third step from the cumulative-difference rule of the spec (the code emits
Q(50) twice; the spec rule emits Q(100) - Q(50) at the last step). -/
theorem animate_differs_from_spec_rule :
    animateQs (S_of 78) (Ia_of (S_of 78)) (linspace 0 100 3)
      ≠ specAnimateQs (S_of 78) (Ia_of (S_of 78)) (linspace 0 100 3) := by
  have hl : linspace 0 100 3 = [0, 50, 100] := by
    norm_num [linspace, linspaceAt, List.range_succ]
  have ha : (animateQs (S_of 78) (Ia_of (S_of 78)) (linspace 0 100 3)).getD 2 0
      = scs_runoff 50 (S_of 78) (Ia_of (S_of 78)) := by
    rw [hl]
    norm_num [animateQs, List.getD_cons_succ, List.getD_cons_zero]
  have hb : (specAnimateQs (S_of 78) (Ia_of (S_of 78)) (linspace 0 100 3)).getD 2 0
      = max (scs_runoff 100 (S_of 78) (Ia_of (S_of 78))
          - scs_runoff 50 (S_of 78) (Ia_of (S_of 78))) 0 := by
    rw [hl]
    norm_num [specAnimateQs, List.getD_cons_succ, List.getD_cons_zero]
  have h50 : scs_runoff 50 (S_of 78) (Ia_of (S_of 78)) < 12 := by
    norm_num [scs_runoff, S_of, Ia_of]
  have h100 : 30 < scs_runoff 100 (S_of 78) (Ia_of (S_of 78))
      - scs_runoff 50 (S_of 78) (Ia_of (S_of 78)) := by
    norm_num [scs_runoff, S_of, Ia_of]
  intro h
  have h3 := congrArg (fun l => l.getD 2 0) h
  simp only [ha, hb] at h3
  have hle := le_max_left (scs_runoff 100 (S_of 78) (Ia_of (S_of 78))
      - scs_runoff 50 (S_of 78) (Ia_of (S_of 78))) (0 : ℚ)
  linarith

/-- C8: for every cell the SCS runoff is exactly zero whenever the cumulative
rainfall P satisfies P ≤ Ia, and equals (P - Ia) ^ 2 / (P - Ia + S) whenever
P > Ia. -/
theorem scs_runoff_cases (P S Ia : ℚ) :
    (P ≤ Ia → scs_runoff P S Ia = 0)
    ∧ (Ia < P → scs_runoff P S Ia = (P - Ia) ^ 2 / (P - Ia + S)) := by
  constructor
  · intro h
    have hx : ¬ (0 < P - Ia) := by linarith
    simp [scs_runoff, hx]
  · intro h
    have hx : 0 < P - Ia := by linarith
    simp [scs_runoff, hx]

/-- Witness for scs_runoff_cases, both branches at concrete inputs. -/
theorem scs_runoff_cases_witness :
    scs_runoff 10 70 14 = 0 ∧ scs_runoff 50 70 14 = (50 - 14) ^ 2 / (50 - 14 + 70) :=
  ⟨(scs_runoff_cases 10 70 14).1 (by norm_num),
   (scs_runoff_cases 50 70 14).2 (by norm_num)⟩

/-- C9 (amended): for every CN in [30, 98] the retention S = 25400 / CN - 254
is non-negative; at the endpoints CN = 30 gives S = 1778/3 (about 592.7 mm,
matching the spec) while CN = 98 gives S = 254/49 (about 5.2 mm, not the
9.2 mm the spec states). -/
theorem S_nonneg_on_range :
    (∀ cn : ℚ, 30 ≤ cn → cn ≤ 98 → 0 ≤ S_of cn)
    ∧ S_of 30 = 1778 / 3 ∧ S_of 98 = 254 / 49 := by
  refine ⟨?_, by norm_num [S_of], by norm_num [S_of]⟩
  intro cn h30 h98
  have hpos : (0 : ℚ) < cn := by linarith
  have h : (254 : ℚ) ≤ 25400 / cn := by
    rw [le_div_iff₀ hpos]
    linarith
  unfold S_of
  linarith

/-- Witness for S_nonneg_on_range at CN = 50. -/
theorem S_nonneg_on_range_witness : 0 ≤ S_of 50 :=
  S_nonneg_on_range.1 50 (by norm_num) (by norm_num)

/-- C9 counterexample: at CN = 98 the code computes S = 254/49, which is below
6 mm, so the spec value of approximately 9.2 mm is wrong at that endpoint. -/
theorem S_at_98_below_six : S_of 98 < 6 := by
  norm_num [S_of]

/-- C6: the CN field is clipped into [30, 98] for every cover code and every
moisture state, and in particular the Built cell (code 2) under Wet adjustment
gets CN = 98, not 100; S for that cell is S_of 98, so the retention formula is
never evaluated at CN = 100. -/
theorem CN_clipped :
    (∀ (cover : ℤ) (m : Moisture), 30 ≤ CN_cell cover m ∧ CN_cell cover m ≤ 98)
    ∧ CN_cell 2 Moisture.Wet = 98 ∧ S_cell 2 Moisture.Wet = S_of 98 := by
  have h98 : CN_cell 2 Moisture.Wet = 98 := by
    norm_num [CN_cell, npClip, CN_base_at, moisture_adj, min_def, max_def]
  refine ⟨?_, h98, ?_⟩
  · intro cover m
    constructor
    · exact le_min (le_max_right _ _) (by norm_num)
    · exact min_le_right _ _
  · show S_of (CN_cell 2 Moisture.Wet) = S_of 98
    rw [h98]

/-- Neighbor offsets scanned by route_d8, in the loop order of the source
(dr outer from -1 to 1, dc inner from -1 to 1, the cell itself included). -/
def offsets : List (ℤ × ℤ) :=
  [(-1, -1), (-1, 0), (-1, 1), (0, -1), (0, 0), (0, 1), (1, -1), (1, 0), (1, 1)]

/-- Bounds check 0 ≤ rr < H and 0 ≤ cc < W of route_d8 (line 233), packaged
as the in-range cell when it exists. -/
def cellAt (H W : ℕ) (rr cc : ℤ) : Option (Fin H × Fin W) :=
  if h : 0 ≤ rr ∧ rr < (H : ℤ) ∧ 0 ≤ cc ∧ cc < (W : ℤ) then
    some (⟨rr.toNat, by omega⟩, ⟨cc.toNat, by omega⟩)
  else none

/-- The strictly-lowest-neighbor scan of route_d8 (lines 228-236): start from
the cell itself and move to each scanned neighbor whose elevation is strictly
below the current minimum; ties keep the earlier cell in scan order, and the
result is the cell itself when no neighbor is strictly lower. -/
def lowestNeighbor {H W : ℕ} (elev : Fin H × Fin W → ℚ) (p : Fin H × Fin W) :
    Fin H × Fin W :=
  offsets.foldl (fun best d =>
    match cellAt H W ((p.1 : ℤ) + d.1) ((p.2 : ℤ) + d.2) with
    | some q => if elev q < elev best then q else best
    | none => best) p

/-- Water kept at a cell by one sweep: a cell with a strictly lower neighbor
keeps acc * 0.12 (line 239), a local minimum keeps everything. -/
def retained {H W : ℕ} (elev acc : Fin H × Fin W → ℚ) (p : Fin H × Fin W) : ℚ :=
  if lowestNeighbor elev p ≠ p then 12 / 100 * acc p else acc p

/-- Water one sweep moves from cell q into the incoming buffer of cell p:
acc q * 0.88 lands on the strictly lowest neighbor of q (line 238). -/
def movedInto {H W : ℕ} (elev acc : Fin H × Fin W → ℚ) (q p : Fin H × Fin W) : ℚ :=
  if lowestNeighbor elev q ≠ q ∧ lowestNeighbor elev q = p then 88 / 100 * acc q else 0

/-- Total buffered inflow applied to cell p when the sweep ends (line 240). -/
def inflow {H W : ℕ} (elev acc : Fin H × Fin W → ℚ) (p : Fin H × Fin W) : ℚ :=
  ∑ q, movedInto elev acc q p

/-- One iteration of route_d8.  The in-place update acc[r, c] *= 0.12 of the
source only touches the cell being visited and the moved buffer is applied
after the double loop, so the sweep is a pure function of the acc array as it
stood when the iteration began. -/
def routeSweep {H W : ℕ} (elev acc : Fin H × Fin W → ℚ) : Fin H × Fin W → ℚ :=
  fun p => retained elev acc p + inflow elev acc p

/-- route_d8(Q_mm, elev, iters) (lines 221-241): acc starts as a copy of Q_mm
and is swept iters times. -/
def route_d8 {H W : ℕ} (Q_mm elev : Fin H × Fin W → ℚ) (iters : ℕ) :
    Fin H × Fin W → ℚ :=
  (routeSweep elev)^[iters] Q_mm

theorem inflow_total {H W : ℕ} (elev acc : Fin H × Fin W → ℚ) :
    ∑ p, inflow elev acc p
      = ∑ q, (if lowestNeighbor elev q ≠ q then 88 / 100 * acc q else 0 : ℚ) := by
  unfold inflow
  rw [Finset.sum_comm]
  refine Finset.sum_congr rfl fun q _ => ?_
  by_cases hq : lowestNeighbor elev q ≠ q
  · simp [movedInto, hq, Finset.sum_ite_eq]
  · simp [movedInto, hq]

theorem routeSweep_sum {H W : ℕ} (elev acc : Fin H × Fin W → ℚ) :
    ∑ p, routeSweep elev acc p = ∑ p, acc p := by
  unfold routeSweep
  rw [Finset.sum_add_distrib, inflow_total, ← Finset.sum_add_distrib]
  refine Finset.sum_congr rfl fun p _ => ?_
  unfold retained
  by_cases hp : lowestNeighbor elev p ≠ p
  · rw [if_pos hp, if_pos hp]; ring
  · rw [if_neg hp, if_neg hp]; ring

/-- C4: each route_d8 sweep conserves water: for every non-negative source grid
and every elevation grid of the same shape, the retained total plus the moved
total equals the input total, and the grid sum is unchanged by every iteration
count of route_d8. -/
theorem route_d8_conserves (H W iters : ℕ) (Q_mm elev : Fin H × Fin W → ℚ)
    (hQ : ∀ p, 0 ≤ Q_mm p) :
    ((∑ p, retained elev Q_mm p) + (∑ p, inflow elev Q_mm p) = ∑ p, Q_mm p)
    ∧ ∑ p, route_d8 Q_mm elev iters p = ∑ p, Q_mm p := by
  constructor
  · rw [← Finset.sum_add_distrib]
    exact routeSweep_sum elev Q_mm
  · induction iters with
    | zero => simp [route_d8]
    | succ n ih =>
      show ∑ p, (routeSweep elev)^[n + 1] Q_mm p = ∑ p, Q_mm p
      rw [Function.iterate_succ_apply', routeSweep_sum]
      exact ih

/-- Witness for route_d8_conserves on a concrete 2 x 2 grid. -/
theorem route_d8_conserves_witness :
    ((∑ p, retained (fun _ : Fin 2 × Fin 2 => (0 : ℚ)) (fun _ => (1 : ℚ)) p)
        + (∑ p, inflow (fun _ : Fin 2 × Fin 2 => (0 : ℚ)) (fun _ => (1 : ℚ)) p)
        = ∑ _p : Fin 2 × Fin 2, (1 : ℚ))
    ∧ ∑ p, route_d8 (fun _ : Fin 2 × Fin 2 => (1 : ℚ)) (fun _ => (0 : ℚ)) 2 p
        = ∑ _p : Fin 2 × Fin 2, (1 : ℚ) :=
  route_d8_conserves 2 2 2 (fun _ => 1) (fun _ => 0) (fun _ => by norm_num)

/-- C2 (amended): route_d8 has no flow_fraction parameter; the split is the
hardcoded pair 0.88 and 0.12.  For every cell with a strictly lower neighbor,
one sweep retains 12/100 of its water in place and moves 88/100 of it into the
incoming buffer of the lowest neighbor, and the swept value of such a cell is
its retained share plus its buffered inflow. -/
theorem route_d8_split (H W : ℕ) (elev acc : Fin H × Fin W → ℚ) (p : Fin H × Fin W)
    (h : lowestNeighbor elev p ≠ p) :
    retained elev acc p = 12 / 100 * acc p
    ∧ movedInto elev acc p (lowestNeighbor elev p) = 88 / 100 * acc p
    ∧ routeSweep elev acc p = 12 / 100 * acc p + inflow elev acc p := by
  refine ⟨if_pos h, ?_, ?_⟩
  · unfold movedInto
    rw [if_pos ⟨h, rfl⟩]
  · show retained elev acc p + inflow elev acc p
      = 12 / 100 * acc p + inflow elev acc p
    unfold retained
    rw [if_pos h]

/-- Witness for route_d8_split on a 2 x 1 grid whose upper cell drains down. -/
theorem route_d8_split_witness :
    retained (fun p : Fin 2 × Fin 1 => if p.1 = 0 then (1 : ℚ) else 0)
        (fun _ => (10 : ℚ)) (0, 0)
      = 12 / 100 * (10 : ℚ)
    ∧ movedInto (fun p : Fin 2 × Fin 1 => if p.1 = 0 then (1 : ℚ) else 0)
        (fun _ => (10 : ℚ)) (0, 0)
        (lowestNeighbor (fun p : Fin 2 × Fin 1 => if p.1 = 0 then (1 : ℚ) else 0) (0, 0))
      = 88 / 100 * (10 : ℚ)
    ∧ routeSweep (fun p : Fin 2 × Fin 1 => if p.1 = 0 then (1 : ℚ) else 0)
        (fun _ => (10 : ℚ)) (0, 0)
      = 12 / 100 * (10 : ℚ)
        + inflow (fun p : Fin 2 × Fin 1 => if p.1 = 0 then (1 : ℚ) else 0)
            (fun _ => (10 : ℚ)) (0, 0) :=
  route_d8_split 2 1 (fun p => if p.1 = 0 then (1 : ℚ) else 0) (fun _ => (10 : ℚ))
    (0, 0) (by decide)

/-- C2 counterexample: on a 1 x 2 grid holding one unit of water on the higher
left cell, one sweep leaves 12/100 of it at the origin, not the 15/100 the
claim derives from flow_fraction = 0.85. -/
theorem route_d8_not_fifteen_percent :
    routeSweep (fun p : Fin 1 × Fin 2 => if p.2 = 0 then (1 : ℚ) else 0)
        (fun p => if p.2 = 0 then (1 : ℚ) else 0) (0, 0)
      = 12 / 100
    ∧ routeSweep (fun p : Fin 1 × Fin 2 => if p.2 = 0 then (1 : ℚ) else 0)
        (fun p => if p.2 = 0 then (1 : ℚ) else 0) (0, 0)
      ≠ 15 / 100 := by
  have hin : inflow (fun p : Fin 1 × Fin 2 => if p.2 = 0 then (1 : ℚ) else 0)
      (fun p => if p.2 = 0 then (1 : ℚ) else 0) (0, 0) = 0 := by
    refine Finset.sum_eq_zero fun q _ => ?_
    fin_cases q
    · unfold movedInto
      rw [if_neg]
      rintro ⟨_, habs⟩
      exact absurd habs (by decide)
    · unfold movedInto
      rw [if_neg]
      rintro ⟨habs, _⟩
      exact habs (by decide)
  have hval : routeSweep (fun p : Fin 1 × Fin 2 => if p.2 = 0 then (1 : ℚ) else 0)
      (fun p => if p.2 = 0 then (1 : ℚ) else 0) (0, 0) = 12 / 100 := by
    show retained (fun p : Fin 1 × Fin 2 => if p.2 = 0 then (1 : ℚ) else 0)
        (fun p => if p.2 = 0 then (1 : ℚ) else 0) (0, 0)
      + inflow (fun p : Fin 1 × Fin 2 => if p.2 = 0 then (1 : ℚ) else 0)
        (fun p => if p.2 = 0 then (1 : ℚ) else 0) (0, 0) = 12 / 100
    rw [hin]
    unfold retained
    rw [if_pos (by decide)]
    norm_num
  exact ⟨hval, by rw [hval]; norm_num⟩

theorem foldl_fix {α β : Type} (f : α → β → α) (a : α) (hf : ∀ b, f a b = a) :
    ∀ l : List β, l.foldl f a = a
  | [] => rfl
  | b :: l => by rw [List.foldl_cons, hf b, foldl_fix f a hf l]

theorem lowestNeighbor_flat {H W : ℕ} (elev : Fin H × Fin W → ℚ)
    (h : ∀ p q, elev p = elev q) (p : Fin H × Fin W) :
    lowestNeighbor elev p = p := by
  unfold lowestNeighbor
  refine foldl_fix _ p (fun d => ?_) offsets
  cases hc : cellAt H W ((p.1 : ℤ) + d.1) ((p.2 : ℤ) + d.2) with
  | none => simp [hc]
  | some q =>
    simp only [hc]
    rw [if_neg]
    rw [h q p]
    exact lt_irrefl _

theorem routeSweep_flat {H W : ℕ} (elev acc : Fin H × Fin W → ℚ)
    (h : ∀ p q, elev p = elev q) : routeSweep elev acc = acc := by
  funext p
  show retained elev acc p + inflow elev acc p = acc p
  have hz : inflow elev acc p = 0 := by
    refine Finset.sum_eq_zero fun q _ => ?_
    unfold movedInto
    rw [if_neg]
    rintro ⟨hne, _⟩
    exact hne (lowestNeighbor_flat elev h q)
  rw [hz, add_zero]
  unfold retained
  rw [if_neg fun hne => hne (lowestNeighbor_flat elev h p)]

/-- C7 (amended): on a constant-elevation grid no cell has a strictly lower
neighbor, so route_d8 returns the runoff grid unchanged for every iteration
count; and in the flat scenario with CN = 78 and cumulative P = 50 mm the
per-cell runoff lies strictly between 11.85 and 11.86 mm (about 11.86 mm, not
the 12.2 mm the spec states). -/
theorem flat_route_identity (H W iters : ℕ) (Q_mm elev : Fin H × Fin W → ℚ)
    (h : ∀ p q, elev p = elev q) :
    route_d8 Q_mm elev iters = Q_mm
    ∧ 1185 / 100 < scs_runoff 50 (S_of 78) (Ia_of (S_of 78))
    ∧ scs_runoff 50 (S_of 78) (Ia_of (S_of 78)) < 1186 / 100 := by
  refine ⟨?_, by norm_num [scs_runoff, S_of, Ia_of], by norm_num [scs_runoff, S_of, Ia_of]⟩
  show (routeSweep elev)^[iters] Q_mm = Q_mm
  exact Function.iterate_fixed (routeSweep_flat elev Q_mm h) iters

/-- Witness for flat_route_identity on a constant 2 x 2 grid. -/
theorem flat_route_identity_witness :
    route_d8 (fun _ : Fin 2 × Fin 2 => (7 : ℚ)) (fun _ => (3 : ℚ)) 5 = (fun _ => (7 : ℚ))
    ∧ 1185 / 100 < scs_runoff 50 (S_of 78) (Ia_of (S_of 78))
    ∧ scs_runoff 50 (S_of 78) (Ia_of (S_of 78)) < 1186 / 100 :=
  flat_route_identity 2 2 5 (fun _ => 7) (fun _ => 3) (fun _ _ => rfl)

/-- C7 counterexample: the flat-scenario per-cell runoff at CN 78 and P 50 is
below 12 mm, hence not approximately 12.2 mm as claimed. -/
theorem flat_scenario_runoff_below_twelve :
    scs_runoff 50 (S_of 78) (Ia_of (S_of 78)) < 12 := by
  norm_num [scs_runoff, S_of, Ia_of]

/-- Land-cover code of one cell after the three assignments of lines 197-199:
the grid starts at 1 (ground), forest cells are set to 0, and building or road
cells are then set to 2, so the building/road write wins on overlap. -/
def worldCell (forest build road : Bool) : ℤ :=
  if build || road then 2 else if forest then 0 else 1

/-- The whole land-cover grid, assembled from the three masks. -/
def worldGrid {H W : ℕ} (forest build road : Fin H × Fin W → Bool) :
    Fin H × Fin W → ℤ :=
  fun p => worldCell (forest p) (build p) (road p)

/-- One in-place mask update, forest[r, c] = True. -/
def setMask {α : Type} [DecidableEq α] (f : α → Bool) (p : α) : α → Bool :=
  fun q => if q = p then true else f q

/-- The forest placement loop of lines 185-191: walk the ranked cell list,
stop once count reaches the target, and mark a cell only when it is neither a
building nor a road cell. -/
def placeForestAux {α : Type} [DecidableEq α] (build road : α → Bool) (target : ℕ) :
    List α → ℕ → (α → Bool) → (α → Bool)
  | [], _, f => f
  | p :: rest, count, f =>
    if target ≤ count then f
    else if !build p && !road p then
      placeForestAux build road target rest (count + 1) (setMask f p)
    else
      placeForestAux build road target rest count f

/-- Forest mask produced from the descending-score index list idx2 (line 184),
starting from an all-false mask and count 0. -/
def placeForest {α : Type} [DecidableEq α] (build road : α → Bool) (idx2 : List α)
    (target : ℕ) : α → Bool :=
  placeForestAux build road target idx2 0 (fun _ => false)

theorem placeForestAux_disjoint {α : Type} [DecidableEq α] (build road : α → Bool)
    (target : ℕ) :
    ∀ (l : List α) (count : ℕ) (f : α → Bool),
      (∀ p, f p = true → build p = false ∧ road p = false) →
      ∀ p, placeForestAux build road target l count f p = true →
        build p = false ∧ road p = false := by
  intro l
  induction l with
  | nil => intro count f hf p hp; exact hf p hp
  | cons a rest ih =>
    intro count f hf p hp
    rw [placeForestAux] at hp
    by_cases hstop : target ≤ count
    · rw [if_pos hstop] at hp
      exact hf p hp
    · rw [if_neg hstop] at hp
      by_cases hfree : !build a && !road a
      · rw [if_pos hfree] at hp
        refine ih (count + 1) (setMask f a) ?_ p hp
        intro q hq
        by_cases hqa : q = a
        · subst hqa
          constructor
          · exact Bool.eq_false_iff.mpr fun hb => by simp [hb] at hfree
          · exact Bool.eq_false_iff.mpr fun hr => by simp [hr] at hfree
        · refine hf q ?_
          rw [setMask, if_neg hqa] at hq
          exact hq
      · rw [if_neg hfree] at hp
        exact ih count f hf p hp

theorem worldCell_one_of_three (f b r : Bool) :
    ((if worldCell f b r = 0 then 1 else 0)
      + (if worldCell f b r = 1 then 1 else 0)
      + (if worldCell f b r = 2 then 1 else 0) : ℕ) = 1 := by
  cases f <;> cases b <;> cases r <;> rfl

/-- C5: after classification the land-cover grid is an exact partition: the
counts of forest (0), ground (1) and built (2) cells sum to H * W for every
input configuration, and the placed forest mask never overlaps a building or
road cell. -/
theorem world_partition (H W target : ℕ) (build road : Fin H × Fin W → Bool)
    (idx2 : List (Fin H × Fin W)) :
    ((Finset.univ.filter fun p =>
        worldGrid (placeForest build road idx2 target) build road p = 0).card
      + (Finset.univ.filter fun p =>
          worldGrid (placeForest build road idx2 target) build road p = 1).card
      + (Finset.univ.filter fun p =>
          worldGrid (placeForest build road idx2 target) build road p = 2).card
      = H * W)
    ∧ ∀ p, placeForest build road idx2 target p = true →
        build p = false ∧ road p = false := by
  constructor
  · rw [Finset.card_filter, Finset.card_filter, Finset.card_filter,
      ← Finset.sum_add_distrib, ← Finset.sum_add_distrib]
    have hone : ∀ p ∈ (Finset.univ : Finset (Fin H × Fin W)),
        ((if worldGrid (placeForest build road idx2 target) build road p = 0 then 1 else 0)
          + (if worldGrid (placeForest build road idx2 target) build road p = 1 then 1 else 0)
          + (if worldGrid (placeForest build road idx2 target) build road p = 2 then 1 else 0)
          : ℕ) = 1 :=
      fun p _ => worldCell_one_of_three _ _ _
    rw [Finset.sum_congr rfl hone]
    simp [Finset.card_univ]
  · exact placeForestAux_disjoint build road target idx2 0 (fun _ => false)
      (fun p hp => by simp at hp)

/-- Error taxonomy: the ConfigurationError of the specification, and the
ValueError numpy raises when reducing an empty array. -/
inductive AppError
  | configurationError
  | valueError
deriving DecidableEq

/-- All cells of an h x w array in row-major order, used for reductions. -/
def gridCells (h w : ℕ) (g : ℕ → ℕ → ℚ) : List ℚ :=
  (List.range h).flatMap fun i => (List.range w).map (g i)

/-- Embedding of ndarray.min, which raises ValueError on an empty array. -/
def npMin : List ℚ → Except AppError ℚ
  | [] => .error .valueError
  | x :: xs => .ok (xs.foldl min x)

/-- Embedding of ndarray.max, which raises ValueError on an empty array. -/
def npMax : List ℚ → Except AppError ℚ
  | [] => .error .valueError
  | x :: xs => .ok (xs.foldl max x)

/-- The octave accumulation loop of fbm_noise (lines 62-72), with the random
draws abstracted as noise o i j, the (i, j) entry of the octave-o downsampled
normal field.  Both call sites use lacunarity 2.0, so freq = 2 ^ o; the
downsampled shape is max 2 (h / 2 ^ o) by max 2 (w / 2 ^ o), and the nearest
upsample np.kron(n, np.ones((ceil(h / sh), ceil(w / sw))))[:h, :w] reads entry
(i / ch, j / cw). -/
def fbm_base (h w octaves : ℕ) (persistence : ℚ) (noise : ℕ → ℕ → ℕ → ℚ) :
    ℕ → ℕ → ℚ :=
  (List.range octaves).foldl (fun base o =>
    let sh := max 2 (h / 2 ^ o)
    let sw := max 2 (w / 2 ^ o)
    let ch := (h + sh - 1) / sh
    let cw := (w + sw - 1) / sw
    fun i j => base i j + persistence ^ o * noise o (i / ch) (j / cw))
    (fun _ _ => 0)

/-- The normalization (x - min) / (max - min + 1e-9) applied on lines 74 and
91; the min and max reductions fail on an empty grid exactly as numpy does. -/
def npNormalize (h w : ℕ) (g : ℕ → ℕ → ℚ) : Except AppError (ℕ → ℕ → ℚ) :=
  match npMin (gridCells h w g), npMax (gridCells h w g) with
  | .ok mn, .ok mx => .ok fun i j => (g i j - mn) / (mx - mn + 1 / 1000000000)
  | .error e, _ => .error e
  | _, .error e => .error e

/-- Embedding of fbm_noise (lines 60-75): summed octaves normalized to [0, 1]. -/
def fbm_noise (h w octaves : ℕ) (persistence : ℚ) (noise : ℕ → ℕ → ℕ → ℚ) :
    Except AppError (ℕ → ℕ → ℚ) :=
  npNormalize h w (fbm_base h w octaves persistence noise)

/-- Embedding of build_terrain (lines 77-94).  The external float primitives
are parameters: noise1 and noise2 stand for the rng streams feeding the two
fbm_noise calls, cos4pix j for np.cos(4 * pi * x_j) over the linspace(0, 1, w)
row of line 84, and powSkew for the float power x ** 1.1 of line 92, which is
transcendental over the rationals.  Dimensions are naturals.  The function
performs no input validation: the only failures are the numpy ValueError
raised by min and max reductions over an empty grid. -/
def build_terrain (h w octaves : ℕ) (slope_bias valley_focus relief : ℚ)
    (noise1 noise2 : ℕ → ℕ → ℕ → ℚ) (cos4pix : ℕ → ℚ) (powSkew : ℚ → ℚ) :
    Except AppError (ℕ → ℕ → ℚ) :=
  match fbm_noise h w octaves (55 / 100) noise1 with
  | .error e => .error e
  | .ok fbm =>
    let south := fun i : ℕ => linspaceAt 1 0 h i
    let ridges := fun j : ℕ => 15 / 100 * cos4pix j
    let base := fun i j => slope_bias * south i + (1 - slope_bias) * fbm i j + ridges j
    match fbm_noise h w (max 1 (octaves - 1)) (65 / 100) noise2 with
    | .error e => .error e
    | .ok val =>
      let elev0 := fun i j => base i j - valley_focus * val i j
      match npNormalize h w elev0 with
      | .error e => .error e
      | .ok elev1 => .ok fun i j => powSkew (elev1 i j) * relief

theorem gridCells_ne_nil (h w : ℕ) (g : ℕ → ℕ → ℚ) (hh : 1 ≤ h) (hw : 1 ≤ w) :
    gridCells h w g ≠ [] := by
  have hmem : g 0 0 ∈ gridCells h w g := by
    unfold gridCells
    rw [List.mem_flatMap]
    exact ⟨0, List.mem_range.mpr hh, List.mem_map.mpr ⟨0, List.mem_range.mpr hw, rfl⟩⟩
  exact List.ne_nil_of_mem hmem

theorem npNormalize_ok (h w : ℕ) (g : ℕ → ℕ → ℚ) (hh : 1 ≤ h) (hw : 1 ≤ w) :
    ∃ g₁, npNormalize h w g = .ok g₁ := by
  unfold npNormalize
  rcases hc : gridCells h w g with _ | ⟨x, xs⟩
  · exact absurd hc (gridCells_ne_nil h w g hh hw)
  · exact ⟨_, rfl⟩

theorem gridCells_zero_height (w : ℕ) (g : ℕ → ℕ → ℚ) : gridCells 0 w g = [] := by
  unfold gridCells
  simp

/-- C3 (amended): build_terrain performs no eager validation and can never
raise ConfigurationError.  For every positive pair of dimensions it returns
normally, whatever the octave count; with height 0 it fails, but with the
numpy ValueError of an empty-array reduction, not with ConfigurationError. -/
theorem build_terrain_no_validation :
    (∀ (h w octaves : ℕ) (sb vf rel : ℚ) (n1 n2 : ℕ → ℕ → ℕ → ℚ)
        (c4 : ℕ → ℚ) (ps : ℚ → ℚ), 1 ≤ h → 1 ≤ w →
      (build_terrain h w octaves sb vf rel n1 n2 c4 ps).isOk = true)
    ∧ (∀ (w octaves : ℕ) (sb vf rel : ℚ) (n1 n2 : ℕ → ℕ → ℕ → ℚ)
        (c4 : ℕ → ℚ) (ps : ℚ → ℚ),
      build_terrain 0 w octaves sb vf rel n1 n2 c4 ps = .error .valueError) := by
  constructor
  · intro h w octaves sb vf rel n1 n2 c4 ps hh hw
    obtain ⟨g1, h1⟩ := npNormalize_ok h w (fbm_base h w octaves (55 / 100) n1) hh hw
    obtain ⟨g2, h2⟩ := npNormalize_ok h w
      (fbm_base h w (max 1 (octaves - 1)) (65 / 100) n2) hh hw
    unfold build_terrain fbm_noise
    simp only [h1, h2]
    obtain ⟨g3, h3⟩ := npNormalize_ok h w
      (fun i j => (sb * linspaceAt 1 0 h i + (1 - sb) * g1 i j + 15 / 100 * c4 j)
        - vf * g2 i j) hh hw
    simp only [h3]
    rfl
  · intro w octaves sb vf rel n1 n2 c4 ps
    have hz : ∀ g : ℕ → ℕ → ℚ, npNormalize 0 w g = .error .valueError := by
      intro g
      unfold npNormalize
      rw [gridCells_zero_height w g]
      rfl
    unfold build_terrain fbm_noise
    simp only [hz]

/-- Witness for build_terrain_no_validation on a 2 x 2 grid with 3 octaves. -/
theorem build_terrain_no_validation_witness :
    (build_terrain 2 2 3 (1 / 2) (1 / 3) 1 (fun _ _ _ => 0) (fun _ _ _ => 0)
      (fun _ => 1) (fun x => x)).isOk = true :=
  build_terrain_no_validation.1 2 2 3 (1 / 2) (1 / 3) 1 (fun _ _ _ => 0)
    (fun _ _ _ => 0) (fun _ => 1) (fun x => x) (by norm_num) (by norm_num)

/-- C3 counterexample: an octave count far beyond the feasible resolution of a
4 x 4 grid does not raise ConfigurationError; build_terrain returns normally
(the downsampled shape is clamped to at least 2 x 2 on line 66). -/
theorem build_terrain_excess_octaves_ok :
    (build_terrain 4 4 12 (1 / 2) (1 / 3) 1 (fun _ _ _ => 0) (fun _ _ _ => 0)
      (fun _ => 1) (fun x => x)).isOk = true :=
  build_terrain_no_validation.1 4 4 12 (1 / 2) (1 / 3) 1 (fun _ _ _ => 0)
    (fun _ _ _ => 0) (fun _ => 1) (fun x => x) (by norm_num) (by norm_num)

/-- Contents of one numpy array, as a function of row and column. -/
abbrev Arr : Type := ℕ → ℕ → ℚ

/-- The heap of allocated arrays; a numpy array variable is an index into it.
This lets the embedding distinguish acc = Q_mm.copy() (a fresh allocation)
from an alias of the argument, which is what claim C10 is about. -/
abbrev Store : Type := List Arr

/-- Dereference an array index (out-of-range indices read as a zero array). -/
def storeRead (σ : Store) (r : ℕ) : Arr := σ.getD r fun _ _ => 0

/-- Replace the array stored at an index. -/
def storeWrite (σ : Store) (r : ℕ) (a : Arr) : Store := σ.set r a

/-- In-place update of one entry of an array. -/
def setEntry (a : Arr) (r c : ℕ) (v : ℚ) : Arr :=
  fun r₁ c₁ => if r₁ = r ∧ c₁ = c then v else a r₁ c₁

/-- The strictly-lowest-neighbor scan of route_d8 on Nat coordinates, for the
imperative store model; same scan order and bounds checks as lowestNeighbor. -/
def lowestNeighborN (H W : ℕ) (e : Arr) (r c : ℕ) : ℕ × ℕ :=
  offsets.foldl (fun best d =>
    let rr := (r : ℤ) + d.1
    let cc := (c : ℤ) + d.2
    if 0 ≤ rr ∧ rr < (H : ℤ) ∧ 0 ≤ cc ∧ cc < (W : ℤ) then
      if e rr.toNat cc.toNat < e best.1 best.2 then (rr.toNat, cc.toNat) else best
    else best) (r, c)

/-- All cells of the double loop of lines 226-227, row major. -/
def cellList (H W : ℕ) : List (ℕ × ℕ) :=
  (List.range H).flatMap fun r => (List.range W).map fun c => (r, c)

/-- The body of route_d8 for one visited cell (lines 228-239) as a store
transformer: read the elevation array, find the strictly lowest neighbor, and
when it differs from the cell itself add acc[r, c] * 0.88 into the moved
buffer at the destination and scale acc[r, c] by 0.12 in place. -/
def routeCellStep (H W eRef accRef movedRef : ℕ) (σ : Store) (rc : ℕ × ℕ) : Store :=
  let e := storeRead σ eRef
  let best := lowestNeighborN H W e rc.1 rc.2
  if best ≠ rc then
    let acc := storeRead σ accRef
    let moved := storeRead σ movedRef
    let σ₁ := storeWrite σ movedRef
      (setEntry moved best.1 best.2 (moved best.1 best.2 + 88 / 100 * acc rc.1 rc.2))
    let acc₁ := storeRead σ₁ accRef
    storeWrite σ₁ accRef (setEntry acc₁ rc.1 rc.2 (acc₁ rc.1 rc.2 * (12 / 100)))
  else σ

/-- One outer iteration of route_d8 (lines 224-240): allocate the fresh moved
buffer (np.zeros_like), run the double loop, then apply acc += moved. -/
def routeIter (H W eRef accRef : ℕ) (σ : Store) : Store :=
  let movedRef := σ.length
  let σ₀ := σ ++ [fun _ _ => 0]
  let σ₁ := (cellList H W).foldl (routeCellStep H W eRef accRef movedRef) σ₀
  let acc := storeRead σ₁ accRef
  let moved := storeRead σ₁ movedRef
  storeWrite σ₁ accRef fun r c => acc r c + moved r c

/-- route_d8 in the store model (lines 221-241): allocate acc as a copy of the
Q_mm argument, iterate the sweep, and return the store with the index of the
acc array that the caller receives. -/
def route_d8_prog (H W : ℕ) (σ : Store) (qRef eRef iters : ℕ) : Store × ℕ :=
  let accRef := σ.length
  let σ₀ := σ ++ [storeRead σ qRef]
  ((routeIter H W eRef accRef)^[iters] σ₀, accRef)

theorem storeRead_write_ne (σ : Store) (i j : ℕ) (a : Arr) (h : j ≠ i) :
    storeRead (storeWrite σ i a) j = storeRead σ j := by
  unfold storeRead storeWrite
  rw [List.getD_eq_getElem?_getD, List.getD_eq_getElem?_getD,
    List.getElem?_set_ne (Ne.symm h)]

theorem storeRead_append_left (σ τ : Store) (j : ℕ) (h : j < σ.length) :
    storeRead (σ ++ τ) j = storeRead σ j := by
  unfold storeRead
  rw [List.getD_eq_getElem?_getD, List.getD_eq_getElem?_getD,
    List.getElem?_append_left h]

theorem routeCellStep_read_ne (H W eRef accRef movedRef : ℕ) (σ : Store)
    (rc : ℕ × ℕ) (j : ℕ) (hja : j ≠ accRef) (hjm : j ≠ movedRef) :
    storeRead (routeCellStep H W eRef accRef movedRef σ rc) j = storeRead σ j := by
  unfold routeCellStep
  dsimp only
  split
  · rw [storeRead_write_ne _ _ _ _ hja, storeRead_write_ne _ _ _ _ hjm]
  · rfl

theorem routeCellStep_length (H W eRef accRef movedRef : ℕ) (σ : Store)
    (rc : ℕ × ℕ) :
    (routeCellStep H W eRef accRef movedRef σ rc).length = σ.length := by
  unfold routeCellStep
  dsimp only
  split
  · unfold storeWrite
    rw [List.length_set, List.length_set]
  · rfl

theorem sweepFold_read_ne (H W eRef accRef movedRef : ℕ) (j : ℕ)
    (hja : j ≠ accRef) (hjm : j ≠ movedRef) :
    ∀ (l : List (ℕ × ℕ)) (σ : Store),
      storeRead (l.foldl (routeCellStep H W eRef accRef movedRef) σ) j = storeRead σ j
  | [], _ => rfl
  | rc :: l, σ => by
    rw [List.foldl_cons, sweepFold_read_ne H W eRef accRef movedRef j hja hjm l _,
      routeCellStep_read_ne H W eRef accRef movedRef σ rc j hja hjm]

theorem sweepFold_length (H W eRef accRef movedRef : ℕ) :
    ∀ (l : List (ℕ × ℕ)) (σ : Store),
      (l.foldl (routeCellStep H W eRef accRef movedRef) σ).length = σ.length
  | [], _ => rfl
  | rc :: l, σ => by
    rw [List.foldl_cons, sweepFold_length H W eRef accRef movedRef l _,
      routeCellStep_length]

theorem routeIter_length (H W eRef accRef : ℕ) (σ : Store) :
    (routeIter H W eRef accRef σ).length = σ.length + 1 := by
  unfold routeIter storeWrite
  dsimp only
  rw [List.length_set, sweepFold_length, List.length_append]
  rfl

theorem routeIter_read_ne (H W eRef accRef : ℕ) (σ : Store) (j : ℕ)
    (hja : j ≠ accRef) (hlen : j < σ.length) :
    storeRead (routeIter H W eRef accRef σ) j = storeRead σ j := by
  unfold routeIter
  dsimp only
  rw [storeRead_write_ne _ _ _ _ hja,
    sweepFold_read_ne H W eRef accRef σ.length j hja (Nat.ne_of_lt hlen),
    storeRead_append_left _ _ _ hlen]

theorem routeIter_iterate_length (H W eRef accRef : ℕ) :
    ∀ (n : ℕ) (σ : Store),
      ((routeIter H W eRef accRef)^[n] σ).length = σ.length + n
  | 0, _ => rfl
  | n + 1, σ => by
    rw [Function.iterate_succ_apply', routeIter_length,
      routeIter_iterate_length H W eRef accRef n σ]
    rfl

theorem routeIter_iterate_read_ne (H W eRef accRef : ℕ) (j : ℕ) (hja : j ≠ accRef) :
    ∀ (n : ℕ) (σ : Store), j < σ.length →
      storeRead ((routeIter H W eRef accRef)^[n] σ) j = storeRead σ j
  | 0, _, _ => rfl
  | n + 1, σ, hlen => by
    rw [Function.iterate_succ_apply']
    have hlen₂ : j < ((routeIter H W eRef accRef)^[n] σ).length := by
      rw [routeIter_iterate_length]
      omega
    rw [routeIter_read_ne H W eRef accRef _ j hja hlen₂,
      routeIter_iterate_read_ne H W eRef accRef j hja n σ hlen]

/-- C10: route_d8 mutates neither of its argument arrays: for every store
holding the Q_mm and elev arrays at distinct valid indices and any iteration
count, the run leaves both argument arrays unchanged, and the accumulator it
returns is a fresh allocation distinct from both inputs (acc = Q_mm.copy()
on line 223, and all writes target acc or the moved buffer). -/
theorem route_d8_prog_frame (H W : ℕ) (σ : Store) (qRef eRef iters : ℕ)
    (hq : qRef < σ.length) (he : eRef < σ.length) :
    storeRead (route_d8_prog H W σ qRef eRef iters).1 qRef = storeRead σ qRef
    ∧ storeRead (route_d8_prog H W σ qRef eRef iters).1 eRef = storeRead σ eRef
    ∧ (route_d8_prog H W σ qRef eRef iters).2 ≠ qRef
    ∧ (route_d8_prog H W σ qRef eRef iters).2 ≠ eRef := by
  have hread : ∀ j, j < σ.length →
      storeRead (route_d8_prog H W σ qRef eRef iters).1 j = storeRead σ j := by
    intro j hj
    show storeRead ((routeIter H W eRef σ.length)^[iters] (σ ++ [storeRead σ qRef])) j
      = storeRead σ j
    rw [routeIter_iterate_read_ne H W eRef σ.length j (Nat.ne_of_lt hj) iters _
      (by rw [List.length_append]; omega)]
    exact storeRead_append_left _ _ _ hj
  refine ⟨hread qRef hq, hread eRef he, ?_, ?_⟩
  · show σ.length ≠ qRef
    exact Ne.symm (Nat.ne_of_lt hq)
  · show σ.length ≠ eRef
    exact Ne.symm (Nat.ne_of_lt he)

/-- Witness for route_d8_prog_frame on a two-array store over a 1 x 1 grid. -/
theorem route_d8_prog_frame_witness :
    storeRead (route_d8_prog 1 1 [fun _ _ => (1 : ℚ), fun _ _ => 0] 0 1 1).1 0
      = storeRead [fun _ _ => (1 : ℚ), fun _ _ => 0] 0
    ∧ storeRead (route_d8_prog 1 1 [fun _ _ => (1 : ℚ), fun _ _ => 0] 0 1 1).1 1
      = storeRead [fun _ _ => (1 : ℚ), fun _ _ => 0] 1
    ∧ (route_d8_prog 1 1 [fun _ _ => (1 : ℚ), fun _ _ => 0] 0 1 1).2 ≠ 0
    ∧ (route_d8_prog 1 1 [fun _ _ => (1 : ℚ), fun _ _ => 0] 0 1 1).2 ≠ 1 :=
  route_d8_prog_frame 1 1 [fun _ _ => (1 : ℚ), fun _ _ => 0] 0 1 1
    (by decide) (by decide)
